import Mathlib

/-!
Shallow embedding of the TLS manager of `pkg/tls/tlsmanager.go` together with
the certificate-type enumeration of `pkg/tls/certificate/certificate_type.go`.
Pure functions of the Go source are translated to Lean functions; the mutable
`Manager` is passed explicitly; fallible code returns `Except` or, where the Go
function returns a pair `(value, err)`, a Lean pair with an `Option String`
error component.  Certificates are abstracted to their identity plus the result
of key-algorithm detection, since reading and parsing key material is an
external collaborator in the specification.
-/

namespace TraefikTLS

/-- The `CertificateType` enumeration from `certificate_type.go`: the key algorithm enumeration. -/
inductive CertificateType where
  | RSA
  | EC
deriving DecidableEq, Repr

/-- An abstract handshake-ready certificate: an identity standing for the parsed
leaf/key pair, together with the result of key-algorithm detection
(`none` models a detection failure, which the Go code treats as recoverable). -/
structure Cert where
  id : Nat
  certType : Option CertificateType
deriving DecidableEq, Repr

/-- Modelled from the spec: `certificate.GetCertificateType` (not under `src/`):
derives the key algorithm once from the public key type; detection failure is a
recoverable error, represented here by `none`. -/
def GetCertificateType (c : Cert) : Option CertificateType :=
  c.certType

/-- Modelled from the spec: the external default-certificate provider
`generate.DefaultCertificate` (`GenerateDefault(keyAlgorithm)`), treated as
always succeeding and yielding a certificate of the requested algorithm. -/
def generateDefaultCertificate (t : CertificateType) : Cert :=
  match t with
  | .RSA => { id := 900001, certType := some .RSA }
  | .EC => { id := 900002, certType := some .EC }

/-- A configured certificate reference (`*Certificate` in the Go config):
`parsed` is the result of reading the cert/key files and loading the X509 key
pair; `none` models a read or parse failure. -/
structure ConfigCertificate where
  parsed : Option Cert
deriving DecidableEq, Repr

/-- The `Store` configuration struct as used by `buildCertificateStore`:
an optional list of explicit default certificates and an optional single
default certificate. -/
structure Store where
  defaultCertificates : List ConfigCertificate := []
  defaultCertificate : Option ConfigCertificate := none
deriving DecidableEq, Repr

/-- The composite key of a store's dynamic certificate mapping
(spec: `{hostPattern, sourceLabel}`). -/
structure certificateKey where
  hostPattern : String
  sourceLabel : String
deriving DecidableEq, Repr

/-- The `CertificateStore`: the per-store index of dynamic certificates plus the
ordered default certificates. -/
structure CertificateStore where
  dynamicCerts : List (certificateKey × Cert) := []
  defaultCertificates : List Cert := []
deriving DecidableEq, Repr

/-- A CA source as consumed by `buildTLSConfig`: whether `Read()` succeeds,
whether `AppendCertsFromPEM` accepts the content, whether the source is a file
path (for the error message), and its display name. -/
structure CAFile where
  readOk : Bool := true
  parseOk : Bool := true
  isPath : Bool := false
  name : String := ""
deriving DecidableEq, Repr

/-- The `ClientAuth` part of `Options`. -/
structure ClientAuth where
  caFiles : List CAFile := []
  clientAuthType : String := ""
deriving DecidableEq, Repr

/-- The `Options` struct: a named TLS policy.  `cipherSuites = none` models the
Go nil slice, `some []` models a present-but-empty list. -/
structure Options where
  minVersion : String := ""
  maxVersion : String := ""
  cipherSuites : Option (List String) := none
  curvePreferences : Option (List String) := none
  clientAuth : ClientAuth := {}
  sniStrict : Bool := false
deriving DecidableEq, Repr

/-- The `DefaultTLSOptions` value: the zero `Options` value. -/
def DefaultTLSOptions : Options := {}

/-- The Go `tls.ClientAuthType` enumeration. -/
inductive GoClientAuthType where
  | NoClientCert
  | RequestClientCert
  | RequireAnyClientCert
  | VerifyClientCertIfGiven
  | RequireAndVerifyClientCert
deriving DecidableEq, Repr

/-- The fields of Go's `tls.Config` that `tlsmanager.go` reads or writes.
`clientCAsPresent` models `conf.ClientCAs != nil`.  The default field values
are the Go zero value `tls.Config{}`. -/
structure TLSConfig where
  nextProtos : List String := []
  clientCAsPresent : Bool := false
  clientAuth : GoClientAuthType := .NoClientCert
  minVersion : Nat := 0
  maxVersion : Nat := 0
  preferServerCipherSuites : Bool := false
  cipherSuites : Option (List Nat) := none
  curvePreferences : Option (List Nat) := none
deriving DecidableEq, Repr

/-- The fields of `tls.ClientHelloInfo` that the hooks read. -/
structure ClientHello where
  serverName : String := ""
  cipherSuites : List Nat := []
deriving DecidableEq, Repr

/-- Association-list lookup with string keys, standing for Go map indexing. -/
def assocLookup (key : String) : List (String × α) → Option α
  | [] => none
  | (k, v) :: rest => if k = key then some v else assocLookup key rest

/-- Modelled from the spec: the fixed cipher-suite lookup table `CipherSuites`
(a constant mapping from identifier to Go cipher-suite id; the table itself is
not under `src/`). -/
def CipherSuites : List (String × Nat) :=
  [ ("TLS_RSA_WITH_AES_128_CBC_SHA", 0x002f)
  , ("TLS_RSA_WITH_AES_256_CBC_SHA", 0x0035)
  , ("TLS_RSA_WITH_AES_128_GCM_SHA256", 0x009c)
  , ("TLS_RSA_WITH_AES_256_GCM_SHA384", 0x009d)
  , ("TLS_ECDHE_ECDSA_WITH_AES_128_GCM_SHA256", 0xc02b)
  , ("TLS_ECDHE_ECDSA_WITH_AES_256_GCM_SHA384", 0xc02c)
  , ("TLS_ECDHE_RSA_WITH_AES_128_GCM_SHA256", 0xc02f)
  , ("TLS_ECDHE_RSA_WITH_AES_256_GCM_SHA384", 0xc030)
  , ("TLS_ECDHE_RSA_WITH_CHACHA20_POLY1305", 0xcca8)
  , ("TLS_ECDHE_ECDSA_WITH_CHACHA20_POLY1305", 0xcca9)
  , ("TLS_AES_128_GCM_SHA256", 0x1301)
  , ("TLS_AES_256_GCM_SHA384", 0x1302)
  , ("TLS_CHACHA20_POLY1305_SHA256", 0x1303) ]

/-- Modelled from the spec: the fixed minimum-version lookup table `MinVersion`
(not under `src/`). -/
def MinVersion : List (String × Nat) :=
  [ ("VersionTLS10", 0x0301), ("VersionTLS11", 0x0302)
  , ("VersionTLS12", 0x0303), ("VersionTLS13", 0x0304) ]

/-- Modelled from the spec: the fixed maximum-version lookup table `MaxVersion`
(not under `src/`). -/
def MaxVersion : List (String × Nat) :=
  [ ("VersionTLS10", 0x0301), ("VersionTLS11", 0x0302)
  , ("VersionTLS12", 0x0303), ("VersionTLS13", 0x0304) ]

/-- Modelled from the spec: the fixed curve-identifier lookup table `CurveIDs`
(not under `src/`). -/
def CurveIDs : List (String × Nat) :=
  [ ("CurveP256", 23), ("CurveP384", 24), ("CurveP521", 25), ("X25519", 29) ]

/-- The `isChaChaCipherSuite` test: membership in the fixed set of ChaCha20-Poly1305
suites (`TLS_CHACHA20_POLY1305_SHA256`, `TLS_ECDHE_ECDSA_WITH_CHACHA20_POLY1305`,
`TLS_ECDHE_RSA_WITH_CHACHA20_POLY1305`). -/
def isChaChaCipherSuite (cipherSuite : Nat) : Bool :=
  cipherSuite == 0x1303 || cipherSuite == 0xcca9 || cipherSuite == 0xcca8

/-- The `buildDefaultCertificate` step: load one configured certificate; a read or parse
failure is an error. -/
def buildDefaultCertificate (defaultCertificate : ConfigCertificate) : Except String Cert :=
  match defaultCertificate.parsed with
  | none => .error "failed to load X509 key pair"
  | some cert => .ok cert

/-- The `buildDefaultCertificates` step: load the configured list in order; the first
failure aborts. -/
def buildDefaultCertificates : List ConfigCertificate → Except String (List Cert)
  | [] => .ok []
  | c :: rest =>
    match buildDefaultCertificate c with
    | .error e => .error e
    | .ok cert =>
      match buildDefaultCertificates rest with
      | .error e => .error e
      | .ok l => .ok (cert :: l)

/-- The tail of `buildCertificateStore`: after the initial defaults are chosen,
check for an RSA-capable certificate (unless one was just generated) and append
a generated RSA default if none is present. -/
def ensureRSADefault (defaults : List Cert) (hasRSACertificate : Bool) : List Cert :=
  if hasRSACertificate || defaults.any (fun c => GetCertificateType c == some .RSA) then
    defaults
  else
    defaults ++ [generateDefaultCertificate .RSA]

/-- The `buildCertificateStore` procedure: build a store's default certificates from its
configuration.  Mirrors the Go function, which always returns a store value
together with an optional error (the error cases return the partially built
store). -/
def buildCertificateStore (tlsStore : Store) : CertificateStore × Option String :=
  match tlsStore.defaultCertificates with
  | _ :: _ =>
    match buildDefaultCertificates tlsStore.defaultCertificates with
    | .error e => ({ dynamicCerts := [], defaultCertificates := [] }, some e)
    | .ok certs =>
      ({ dynamicCerts := [], defaultCertificates := ensureRSADefault certs false }, none)
  | [] =>
    match tlsStore.defaultCertificate with
    | some c =>
      match buildDefaultCertificate c with
      | .error e => ({ dynamicCerts := [], defaultCertificates := [] }, some e)
      | .ok cert =>
        ({ dynamicCerts := [], defaultCertificates := ensureRSADefault [cert] false }, none)
    | none =>
      ({ dynamicCerts := [],
         defaultCertificates :=
          ensureRSADefault
            [generateDefaultCertificate .RSA, generateDefaultCertificate .EC] true }, none)

/-- Lowercase one ASCII character. -/
def lowerChar (c : Char) : Char :=
  if 65 ≤ c.toNat ∧ c.toNat ≤ 90 then Char.ofNat (c.toNat + 32) else c

/-- Modelled from the spec: `types.CanonicalDomain` (not under `src/`): the
canonical (lowercased) form of a requested domain. -/
def canonicalDomain (s : String) : String :=
  String.mk (s.data.map lowerChar)

/-- Strip one trailing dot from a character list. -/
def stripTrailingDot (l : List Char) : List Char :=
  match l.getLast? with
  | some c => if c = '.' then l.dropLast else l
  | none => l

/-- Strip a port suffix: keep the characters before the first colon. -/
def stripPort (l : List Char) : List Char :=
  l.takeWhile (fun c => c ≠ ':')

/-- Modelled from the spec: hostname normalization inside `bestCertificate`
(lowercase, strip trailing dot, strip port if present). -/
def normalizeHost (s : String) : List Char :=
  stripTrailingDot (stripPort (s.data.map lowerChar))

/-- Modelled from the spec: wildcard matching — the host equals the suffix, or
ends with `.` followed by the suffix with exactly one label (no dot) before
it. -/
def wildcardMatch (suffix host : List Char) : Bool :=
  host == suffix ||
    (decide (suffix.length + 1 ≤ host.length) &&
      host.drop (host.length - (suffix.length + 1)) == '.' :: suffix &&
      (host.take (host.length - (suffix.length + 1))).all (fun c => c ≠ '.'))

/-- Modelled from the spec: does a dynamic-entry host pattern match a
normalized host (exactly, or as a one-label wildcard `*.suffix`). -/
def matchesHostPattern (pattern : String) (host : List Char) : Bool :=
  pattern.data == host ||
    (match pattern.data with
     | '*' :: '.' :: suffix => wildcardMatch suffix host
     | _ => false)

/-- The fixed classification of client cipher-suite ids that indicate an ECDSA
certificate preference. -/
def isECDSACipherSuite (c : Nat) : Bool :=
  c == 0xc02b || c == 0xc02c || c == 0xcca9 || c == 0xc009 || c == 0xc00a

/-- The fixed classification of client cipher-suite ids that indicate an RSA
certificate preference. -/
def isRSACipherSuite (c : Nat) : Bool :=
  c == 0xc02f || c == 0xc030 || c == 0xcca8 || c == 0x002f || c == 0x0035 ||
    c == 0x009c || c == 0x009d

/-- Modelled from the spec: `getCertTypeForClientHello` (not under `src/`):
prefer EC if the client advertised any ECDSA cipher suite before any RSA one,
else RSA; an empty list defaults to RSA. -/
def getCertTypeForClientHello (hello : ClientHello) : CertificateType :=
  match hello.cipherSuites.find? (fun c => isECDSACipherSuite c || isRSACipherSuite c) with
  | some c => if isECDSACipherSuite c then .EC else .RSA
  | none => .RSA

/-- Specificity-and-algorithm rank of a matching dynamic entry: exact matches
before wildcard matches; within a specificity class, a certificate of the
hinted algorithm before RSA before anything else. -/
def certMatchRank (hint : CertificateType) (host : List Char) (entry : certificateKey × Cert) : Nat :=
  (if entry.1.hostPattern.data == host then 0 else 3) +
    (if GetCertificateType entry.2 == some hint then 0
     else if GetCertificateType entry.2 == some .RSA then 1 else 2)

/-- First entry with the strictly minimal rank (first-inserted wins on ties). -/
def pickFirstMin (f : α → Nat) (l : List α) : Option α :=
  l.foldl
    (fun acc x =>
      match acc with
      | none => some x
      | some y => if f x < f y then some x else acc)
    none

/-- Modelled from the spec: `CertificateStore.GetBestCertificate` (not under
`src/`): normalize the requested host, collect the dynamic entries whose
pattern matches it, and rank them by specificity (exact before wildcard), then
by key-algorithm hint (hinted algorithm, then RSA), ties broken by insertion
order; no dynamic match yields `none`. -/
def GetBestCertificate (store : CertificateStore) (hello : ClientHello) : Option Cert :=
  let host := normalizeHost hello.serverName
  let hint := getCertTypeForClientHello hello
  let matching := store.dynamicCerts.filter (fun e => matchesHostPattern e.1.hostPattern host)
  (pickFirstMin (certMatchRank hint host) matching).map (fun e => e.2)

/-- The default-certificate fallback loop at the end of the `GetCertificate`
closure: walk the store's default certificates, skipping records of
undetectable type; return the first EC record when EC is preferred; remember
every RSA record in `matchingCert` and return it at once when RSA is
preferred. -/
def defaultCertLoop (preferredType : CertificateType) : List Cert → Option Cert → Option Cert
  | [], matchingCert => matchingCert
  | cert :: rest, matchingCert =>
    match GetCertificateType cert with
    | none => defaultCertLoop preferredType rest matchingCert
    | some certType =>
      if certType = .EC ∧ preferredType = .EC then some cert
      else if certType = .RSA then
        (if preferredType = .RSA then some cert
         else defaultCertLoop preferredType rest (some cert))
      else defaultCertLoop preferredType rest matchingCert

/-- The strict-SNI handshake failure message of the `GetCertificate` closure. -/
def strictSNIMessage (domainToCheck : String) : String :=
  "strict SNI enabled - No certificate found for domain: \x22" ++ domainToCheck ++
    "\x22, closing connection"

/-- The body of the `GetCertificate` closure, parameterized by the strict-SNI
bit that the closure reads from the live `m.configs` at handshake time:
consult the optional ALPN getter first, then the captured store's best
certificate, then either fail (strict SNI) or fall back to the default
certificates. -/
def certHookCore (sniStrict : Bool) (alpnGetter : Option (String → Except String (Option Cert)))
    (store : CertificateStore) (hello : ClientHello) : Except String (Option Cert) :=
  let domainToCheck := canonicalDomain hello.serverName
  let afterAlpn : Except String (Option Cert) :=
    match GetBestCertificate store hello with
    | some bestCertificate => .ok (some bestCertificate)
    | none =>
      if sniStrict then .error (strictSNIMessage domainToCheck)
      else .ok (defaultCertLoop (getCertTypeForClientHello hello) store.defaultCertificates none)
  match alpnGetter with
  | none => afterAlpn
  | some getter =>
    match getter domainToCheck with
    | .error e => .error e
    | .ok (some cert) => .ok (some cert)
    | .ok none => afterAlpn

/-- Options resolution used by the `GetCertificate` closure: `m.configs[configName]`,
where a missing key yields the zero `Options` value (Go map semantics). -/
def lookupOptionsD (configs : List (String × Options)) (configName : String) : Options :=
  (assocLookup configName configs).getD {}

/-- The `GetCertificate` closure attached by `Get`: it captures the resolved
store and the options name, and reads `m.configs[configName].SniStrict` and
`m.TLSAlpnGetter` from the live manager state at handshake time. -/
def getCertificateHook (liveConfigs : List (String × Options))
    (alpnGetter : Option (String → Except String (Option Cert)))
    (store : CertificateStore) (configName : String) (hello : ClientHello) :
    Except String (Option Cert) :=
  certHookCore (lookupOptionsD liveConfigs configName).sniStrict alpnGetter store hello

/-- The inner loop of the surviving `GetConfigForClient` closure: for one
configured suite, iterate over the forced (ChaCha) suites, appending the suite
once per forced element until the first forced element equal to it (which
breaks to the next configured suite). -/
def chachaInner (force : List Nat) (cipherSuite : Nat) : List Nat :=
  match force with
  | [] => []
  | f :: rest => if f == cipherSuite then [] else cipherSuite :: chachaInner rest cipherSuite

/-- The surviving (second) `GetConfigForClient` closure attached by `Get`:
clone the captured configuration and, when the configured cipher list is
non-empty and the client's first advertised suite is a ChaCha suite, set the
clone's cipher list to the configured ChaCha suites followed by the appends
produced by the labelled double loop over the configured list. -/
def getConfigForClient (tlsConfig : TLSConfig) (clientHello : ClientHello) : TLSConfig :=
  match tlsConfig.cipherSuites, clientHello.cipherSuites with
  | some base, first :: _ =>
    if base.isEmpty then tlsConfig
    else if isChaChaCipherSuite first then
      let forceCiphers := base.filter isChaChaCipherSuite
      { tlsConfig with
          cipherSuites := some (forceCiphers ++ (base.map (chachaInner forceCiphers)).flatten) }
    else tlsConfig
  | _, _ => tlsConfig

/-- The constant `NextProtos` baseline set at the top of `buildTLSConfig`. -/
def baseTLSConfig : TLSConfig :=
  { nextProtos := ["h2", "http/1.1", "acme-tls/1"] }

/-- The CA-reading loop of `buildTLSConfig`: the first read failure or PEM
rejection produces the error message; `none` means every source was accepted. -/
def checkCAFiles : List CAFile → Option String
  | [] => none
  | f :: rest =>
    if f.readOk = false then some ("failed to read CA file " ++ f.name)
    else if f.parseOk = false then
      (if f.isPath then some ("invalid certificate(s) in " ++ f.name)
       else some "invalid certificate(s) content")
    else checkCAFiles rest

/-- The configuration produced by the client-CA stage when CA sources are
configured and accepted: the pool is present and the policy is forced to
`RequireAndVerifyClientCert`. -/
def caPoolConfig : TLSConfig :=
  { baseTLSConfig with
      clientCAsPresent := true
      clientAuth := .RequireAndVerifyClientCert }

/-- The client-CA stage of `buildTLSConfig`: with configured CA sources, read
and pool them (failure aborts) and force `RequireAndVerifyClientCert`. -/
def caStage (tlsOption : Options) : Except String TLSConfig :=
  if tlsOption.clientAuth.caFiles = [] then .ok baseTLSConfig
  else
    match checkCAFiles tlsOption.clientAuth.caFiles with
    | some e => .error e
    | none => .ok caPoolConfig

/-- The client-auth-type stage of `buildTLSConfig`: an explicitly configured
policy string is validated (verification policies require a CA pool) and
mapped onto the Go enumeration; an unrecognized string is an error. -/
def authTypeStage (tlsOption : Options) (conf : TLSConfig) : Except String TLSConfig :=
  let t := tlsOption.clientAuth.clientAuthType
  if t = "" then .ok conf
  else if conf.clientCAsPresent = false ∧ (t = "VerifyClientCertIfGiven" ∨ t = "RequireAndVerifyClientCert") then
    .error ("invalid clientAuthType: " ++ t ++ ", CAFiles is required")
  else if t = "NoClientCert" then .ok { conf with clientAuth := .NoClientCert }
  else if t = "RequestClientCert" then .ok { conf with clientAuth := .RequestClientCert }
  else if t = "RequireAnyClientCert" then .ok { conf with clientAuth := .RequireAnyClientCert }
  else if t = "VerifyClientCertIfGiven" then .ok { conf with clientAuth := .VerifyClientCertIfGiven }
  else if t = "RequireAndVerifyClientCert" then .ok { conf with clientAuth := .RequireAndVerifyClientCert }
  else .error ("unknown client auth type \x22" ++ t ++ "\x22")

/-- The version stage of `buildTLSConfig`: recognized minimum/maximum version
identifiers set the bound and server cipher-suite preference; unknown
identifiers are silently ignored. -/
def versionStage (tlsOption : Options) (conf : TLSConfig) : TLSConfig :=
  let c1 :=
    match assocLookup tlsOption.minVersion MinVersion with
    | some v => { conf with preferServerCipherSuites := true, minVersion := v }
    | none => conf
  match assocLookup tlsOption.maxVersion MaxVersion with
  | some v => { c1 with preferServerCipherSuites := true, maxVersion := v }
  | none => c1

/-- Resolve a list of identifiers through a lookup table, left to right; the
first unresolvable identifier aborts with the given message and its name. -/
def resolveIdentifiers (table : List (String × Nat)) (errPre : String) :
    List String → Except String (List Nat)
  | [] => .ok []
  | c :: rest =>
    match assocLookup c table with
    | none => .error (errPre ++ c)
    | some v =>
      match resolveIdentifiers table errPre rest with
      | .error e => .error e
      | .ok l => .ok (v :: l)

/-- The cipher-suite stage of `buildTLSConfig`: a present list (even empty) is
resolved through the `CipherSuites` table in order. -/
def cipherStage (tlsOption : Options) (conf : TLSConfig) : Except String TLSConfig :=
  match tlsOption.cipherSuites with
  | none => .ok conf
  | some cs =>
    match resolveIdentifiers CipherSuites "invalid CipherSuite: " cs with
    | .error e => .error e
    | .ok l => .ok { conf with cipherSuites := some l }

/-- The curve-preference stage of `buildTLSConfig`: a present list is resolved
through the `CurveIDs` table in order. -/
def curveStage (tlsOption : Options) (conf : TLSConfig) : Except String TLSConfig :=
  match tlsOption.curvePreferences with
  | none => .ok conf
  | some cs =>
    match resolveIdentifiers CurveIDs "invalid CurveID in curvePreferences: " cs with
    | .error e => .error e
    | .ok l => .ok { conf with curvePreferences := some l }

/-- The `buildTLSConfig` builder: the pure configuration builder, staged exactly in source
order (NextProtos baseline, client CAs, client-auth policy, version bounds,
cipher suites, curve preferences). -/
def buildTLSConfig (tlsOption : Options) : Except String TLSConfig :=
  match caStage tlsOption with
  | .error e => .error e
  | .ok c1 =>
    match authTypeStage tlsOption c1 with
    | .error e => .error e
    | .ok c2 =>
      let c3 := versionStage tlsOption c2
      match cipherStage tlsOption c3 with
      | .error e => .error e
      | .ok c4 => curveStage tlsOption c4

/-- A certificate assignment (`*CertAndStores`): the parsed certificate (or a
parse failure), the host patterns it should serve, and the declared target
stores. -/
structure CertAndStores where
  parsed : Option Cert := none
  hostPatterns : List String := []
  stores : List String := []

/-- The `Manager` state: raw store configs, built stores, options registry,
raw certificate assignments and the optional ALPN-challenge getter. -/
structure Manager where
  storesConfig : List (String × Store) := []
  stores : List (String × CertificateStore) := []
  configs : List (String × Options) := []
  certs : List CertAndStores := []
  tlsAlpnGetter : Option (String → Except String (Option Cert)) := none

/-- The `NewManager` constructor: empty stores and an options registry holding the built-in
default entry. -/
def NewManager : Manager :=
  { stores := [], configs := [("default", DefaultTLSOptions)] }

/-- The `getStore` resolution: get-or-create resolution of a store name; an unknown name is
answered with the store freshly built from the zero `Store` configuration
(the build error, if any, is discarded). -/
def Manager.getStore (m : Manager) (storeName : String) : CertificateStore :=
  match assocLookup storeName m.stores with
  | some store => store
  | none => (buildCertificateStore {}).1

/-- The `GetStore` accessor: the public (locked) wrapper around `getStore`. -/
def Manager.GetStore (m : Manager) (storeName : String) : CertificateStore :=
  m.getStore storeName

/-- Modelled from the spec: `Certificate.AppendCertificate` (not under `src/`):
insert a parsed certificate into a store's dynamic mapping under the composite
`{hostPattern, sourceLabel}` key for each of its host patterns; a parse failure
is logged per certificate and skipped. -/
def appendCertEntries (c : CertAndStores) : List (certificateKey × Cert) :=
  match c.parsed with
  | none => []
  | some cert => c.hostPatterns.map (fun p => ({ hostPattern := p, sourceLabel := "" }, cert))

/-- Partition the certificate assignments by target store, building each
store's dynamic mapping contents in order. -/
def buildStoresCertificates (certs : List CertAndStores) :
    List (String × List (certificateKey × Cert)) :=
  certs.foldl
    (fun acc c =>
      (c.stores).foldl
        (fun acc2 storeName =>
          match assocLookup storeName acc2 with
          | some entries =>
            acc2.map (fun p => if p.1 = storeName then (p.1, entries ++ appendCertEntries c) else p)
          | none => acc2 ++ [(storeName, appendCertEntries c)])
        acc)
    []

/-- The step `m.getStore(storeName).DynamicCerts.Set(certs)` inside `UpdateConfigs`:
replace the dynamic mapping of the named store, creating the store from the
zero configuration first when it is absent. -/
def setStoreDynamic (stores : List (String × CertificateStore)) (storeName : String)
    (entries : List (certificateKey × Cert)) : List (String × CertificateStore) :=
  match assocLookup storeName stores with
  | some _ =>
    stores.map (fun p => if p.1 = storeName then (p.1, { p.2 with dynamicCerts := entries }) else p)
  | none => stores ++ [(storeName, { (buildCertificateStore {}).1 with dynamicCerts := entries })]

/-- The `UpdateConfigs` reload: record the raw configs, rebuild every configured store
(skipping a store whose build fails), assign every certificate to its declared
stores (or to the default store), and install the dynamic mappings. -/
def Manager.UpdateConfigs (m : Manager) (storesArg : List (String × Store))
    (configsArg : List (String × Options)) (certsArg : List CertAndStores) : Manager :=
  let builtStores :=
    storesArg.foldl
      (fun acc p =>
        match buildCertificateStore p.2 with
        | (_, some _) => acc
        | (store, none) => acc ++ [(p.1, store)])
      []
  let certsWithStores :=
    certsArg.map (fun c => if c.stores = [] then { c with stores := ["default"] } else c)
  let storesCertificates := buildStoresCertificates certsWithStores
  let finalStores :=
    storesCertificates.foldl (fun acc p => setStoreDynamic acc p.1 p.2) builtStores
  { storesConfig := storesArg,
    stores := finalStores,
    configs := configsArg,
    certs := certsWithStores,
    tlsAlpnGetter := m.tlsAlpnGetter }

/-- The `Get` hook factory: resolve the options name (an unknown name yields the zero
configuration plus an error), resolve the store by get-or-create, and build
the protocol configuration; the result is the Get-time snapshot that the
per-connection hooks capture (base configuration, store) together with the
options-resolution or build error. -/
def Manager.Get (m : Manager) (storeName : String) (configName : String) :
    TLSConfig × CertificateStore × Option String :=
  let store := m.getStore storeName
  match assocLookup configName m.configs with
  | none => ({}, store, some ("unknown TLS options: " ++ configName))
  | some config =>
    match buildTLSConfig config with
    | .error e => ({}, store, some e)
    | .ok conf => (conf, store, none)

/-- The behavior of the returned `GetCertificate` hook: it closes over the
captured store and options name, and reads the live manager's options registry
and ALPN getter at handshake time. -/
def certHookBehavior (live : Manager) (capturedStore : CertificateStore)
    (configName : String) (hello : ClientHello) : Except String (Option Cert) :=
  getCertificateHook live.configs live.tlsAlpnGetter capturedStore configName hello

/-- The behavior of the returned `GetConfigForClient` hook: it depends only on
the captured base configuration. -/
def configHookBehavior (captured : TLSConfig) (hello : ClientHello) : TLSConfig :=
  getConfigForClient captured hello

/-- The ALPN-challenge provider yields nothing for the given domain: it is
either unconfigured or answers without a certificate and without an error. -/
def alpnYieldsNone (alpnGetter : Option (String → Except String (Option Cert)))
    (domain : String) : Prop :=
  ∀ f, alpnGetter = some f → f domain = .ok none

/-- A base configuration with the configured cipher list `[A, B, C, D]` where
`B = TLS_ECDHE_RSA_WITH_CHACHA20_POLY1305` and
`D = TLS_ECDHE_ECDSA_WITH_CHACHA20_POLY1305` are the classified (ChaCha)
suites. -/
def c1Config : TLSConfig := { cipherSuites := some [0xc02f, 0xcca8, 0x1301, 0xcca9] }

/-- A client hello whose first advertised suite is
`TLS_CHACHA20_POLY1305_SHA256`, a classified (ChaCha) suite. -/
def c1Hello : ClientHello := { serverName := "", cipherSuites := [0x1303] }

/-- A store configuration with a single explicit RSA default certificate. -/
def c2Store : Store :=
  { defaultCertificates := [{ parsed := some { id := 1, certType := some .RSA } }] }

/-- A store configuration with two explicit RSA default certificates and no
EC-capable one. -/
def c3Store : Store :=
  { defaultCertificates :=
      [ { parsed := some { id := 1, certType := some .RSA } }
      , { parsed := some { id := 2, certType := some .RSA } } ] }

/-- A manager whose registry maps the options name to a lenient
(`sniStrict = false`) policy and holds one fully built store. -/
def c6m0 : Manager :=
  { stores := [("st", (buildCertificateStore {}).1)]
    configs := [("opt", { sniStrict := false })] }

/-- The manager after a reload that flips the same options name to
`sniStrict = true`. -/
def c6m1 : Manager := c6m0.UpdateConfigs [] [("opt", { sniStrict := true })] []

/-- A client hello that matches no dynamic certificate. -/
def c6hello : ClientHello := { serverName := "" }

/-- Options whose cipher-suite identifiers are all present in the lookup table
but whose curve preference is not: the claimed unconditional build success
fails here. -/
def c8badOptions : Options :=
  { cipherSuites := some ["TLS_CHACHA20_POLY1305_SHA256"]
    curvePreferences := some ["bogus"] }

/-- Options with only valid cipher-suite identifiers and benign remaining
fields. -/
def c8goodOptions : Options :=
  { cipherSuites := some ["TLS_CHACHA20_POLY1305_SHA256", "TLS_ECDHE_RSA_WITH_CHACHA20_POLY1305"] }

/-- Options with two CA sources, the first parsing successfully and the second
rejected, and an empty client-auth policy string. -/
def c9badOptions : Options :=
  { clientAuth := { caFiles := [{ parseOk := true }, { parseOk := false }] } }

/-- Options with one valid CA source and an empty client-auth policy string. -/
def c9goodOptions : Options :=
  { clientAuth := { caFiles := [{}] } }

/-- Options configuring a verification-requiring client-auth policy without
any CA source. -/
def c7Options : Options :=
  { clientAuth := { clientAuthType := "RequireAndVerifyClientCert" } }

/-- An ALPN-challenge getter that fails for every domain. -/
def c10getter : String → Except String (Option Cert) :=
  fun _ => .error "acme/tls-alpn-01 lookup failed"

lemma ensureRSADefault_true (l : List Cert) : ensureRSADefault l true = l := by
  simp [ensureRSADefault]

lemma ensureRSADefault_false_has_rsa (l : List Cert) :
    ∃ c ∈ ensureRSADefault l false, GetCertificateType c = some CertificateType.RSA := by
  unfold ensureRSADefault
  by_cases h : l.any (fun c => GetCertificateType c == some CertificateType.RSA)
  · obtain ⟨c, hc, hty⟩ := List.any_eq_true.mp h
    exact ⟨c, by simp [h, hc], by simpa using hty⟩
  · exact ⟨generateDefaultCertificate .RSA, by simp [h], rfl⟩

lemma build_has_rsa (s : Store) (h : (buildCertificateStore s).2 = none) :
    ∃ c ∈ (buildCertificateStore s).1.defaultCertificates,
      GetCertificateType c = some CertificateType.RSA := by
  rcases hd : s.defaultCertificates with _ | ⟨a, l⟩
  · rcases hc : s.defaultCertificate with _ | c
    · simp only [buildCertificateStore, hd, hc, ensureRSADefault_true]
      exact ⟨generateDefaultCertificate .RSA, by simp, rfl⟩
    · rcases hp : buildDefaultCertificate c with e | cert
      · exfalso
        simp [buildCertificateStore, hd, hc, hp] at h
      · simp only [buildCertificateStore, hd, hc, hp]
        exact ensureRSADefault_false_has_rsa _
  · rcases hb : buildDefaultCertificates (a :: l) with e | certs
    · exfalso
      simp [buildCertificateStore, hd, hb] at h
    · simp only [buildCertificateStore, hd, hb]
      exact ensureRSADefault_false_has_rsa _

lemma checkCAFiles_all_ok (l : List CAFile)
    (h : ∀ f ∈ l, f.readOk = true ∧ f.parseOk = true) : checkCAFiles l = none := by
  induction l with
  | nil => rfl
  | cons f rest ih =>
    obtain ⟨hr, hp⟩ := h f (by simp)
    simp only [checkCAFiles, hr, hp]
    simp only [Bool.true_eq_false, if_false]
    exact ih (fun g hg => h g (by simp [hg]))

/-- Claim C1.  The claim states that for a configured cipher list `[A, B, C, D]`
with `{B, D}` the classified ChaCha suites and a client whose first advertised
suite is a ChaCha suite, the adapted cipher list is `[B, D, A, C]` with no
suite duplicated or dropped.  The surviving `GetConfigForClient` closure in
`Get`, at exactly this input, instead produces `[B, D, A, A, C, C, D]`: its
inner loop appends each non-classified suite once per classified suite and
appends a classified suite once per classified suite preceding it in the
forced list, so suites are duplicated.  This evaluates the code at the failing
input and shows the output differs from the specified `[B, D, A, C]`. -/
theorem c1_chacha_reorder_bug :
    (getConfigForClient c1Config c1Hello).cipherSuites =
      some [0xcca8, 0xcca9, 0xc02f, 0xc02f, 0x1301, 0x1301, 0xcca9] ∧
    (getConfigForClient c1Config c1Hello).cipherSuites ≠
      some [0xcca8, 0xcca9, 0xc02f, 0x1301] := by
  constructor
  · rfl
  · decide

/-- Claim C2, counterexample.  A store configuration with a single explicit
RSA-capable default certificate builds without error, yet its
`DefaultCertificates` list contains no EC-capable record, refuting the claimed
invariant that both algorithms are always represented. -/
theorem c2_counterexample :
    (buildCertificateStore c2Store).2 = none ∧
    ¬ ∃ c ∈ (buildCertificateStore c2Store).1.defaultCertificates,
        GetCertificateType c = some CertificateType.EC := by
  constructor
  · rfl
  · decide

/-- Claim C2, amended.  After `buildCertificateStore` completes without error, the
store's `DefaultCertificates` list contains at least one RSA-capable record;
and for a store with no explicit default certificates, it contains both an
RSA-capable and an EC-capable generated record. -/
theorem c2_amended (s : Store) (h : (buildCertificateStore s).2 = none) :
    (∃ c ∈ (buildCertificateStore s).1.defaultCertificates,
        GetCertificateType c = some CertificateType.RSA) ∧
    (s.defaultCertificates = [] → s.defaultCertificate = none →
      (∃ c ∈ (buildCertificateStore s).1.defaultCertificates,
          GetCertificateType c = some CertificateType.RSA) ∧
      (∃ c ∈ (buildCertificateStore s).1.defaultCertificates,
          GetCertificateType c = some CertificateType.EC)) := by
  refine ⟨build_has_rsa s h, fun hd hc => ?_⟩
  constructor
  · exact build_has_rsa s h
  · simp only [buildCertificateStore, hd, hc, ensureRSADefault_true]
    exact ⟨generateDefaultCertificate .EC, by simp, rfl⟩

/-- Witness for C2: the zero store configuration builds without error and its
defaults carry both algorithms. -/
theorem c2_amended_witness :
    ((buildCertificateStore {}).2 = none) ∧
    (∃ c ∈ (buildCertificateStore ({} : Store)).1.defaultCertificates,
        GetCertificateType c = some CertificateType.RSA) := by
  refine ⟨rfl, ?_⟩
  exact (c2_amended {} rfl).1

/-- Claim C5, counterexample.  Resolving an unknown store name yields a freshly
built store whose `DefaultCertificates` list is the two generated (RSA and EC)
certificates — not, as claimed, a store with no default certificates. -/
theorem c5_counterexample :
    (Manager.getStore NewManager "unknownStore").defaultCertificates =
      [generateDefaultCertificate .RSA, generateDefaultCertificate .EC] ∧
    (Manager.getStore NewManager "unknownStore").defaultCertificates ≠ [] := by
  constructor
  · rfl
  · decide

/-- Claim C5, amended.  For every store name not present in the registry, `getStore`
(and `GetStore`) resolves it, instead of returning an error, to the store
freshly built from the zero store configuration: its dynamic mapping is empty
and its default certificates are the generated RSA and EC pair. -/
theorem c5_amended (m : Manager) (storeName : String)
    (h : assocLookup storeName m.stores = none) :
    m.getStore storeName = (buildCertificateStore {}).1 ∧
    (m.getStore storeName).dynamicCerts = [] ∧
    (m.getStore storeName).defaultCertificates =
      [generateDefaultCertificate .RSA, generateDefaultCertificate .EC] ∧
    m.GetStore storeName = m.getStore storeName := by
  have hg : m.getStore storeName = (buildCertificateStore {}).1 := by
    simp [Manager.getStore, h]
  refine ⟨hg, ?_, ?_, rfl⟩
  · rw [hg]
    rfl
  · rw [hg]
    rfl

/-- Witness for C5: the fresh manager has no store under the name used. -/
theorem c5_amended_witness :
    assocLookup "unknownStore" NewManager.stores = none ∧
    (Manager.getStore NewManager "unknownStore").dynamicCerts = [] := by
  exact ⟨rfl, (c5_amended NewManager "unknownStore" rfl).2.1⟩

/-- Claim C7.  For every `Options` value whose client-auth policy is
`RequireAndVerifyClientCert` or `VerifyClientCertIfGiven` and whose CA-source
list is empty, `buildTLSConfig` fails with the configuration error naming the
policy, rather than returning a configuration. -/
theorem c7_client_auth_requires_ca (o : Options)
    (hty : o.clientAuth.clientAuthType = "RequireAndVerifyClientCert" ∨
      o.clientAuth.clientAuthType = "VerifyClientCertIfGiven")
    (hca : o.clientAuth.caFiles = []) :
    buildTLSConfig o =
      .error ("invalid clientAuthType: " ++ o.clientAuth.clientAuthType ++
        ", CAFiles is required") := by
  have hcs : caStage o = .ok baseTLSConfig := by
    simp [caStage, hca]
  have hauth : authTypeStage o baseTLSConfig =
      .error ("invalid clientAuthType: " ++ o.clientAuth.clientAuthType ++
        ", CAFiles is required") := by
    rcases hty with hty | hty <;> simp [authTypeStage, hty, baseTLSConfig]
  simp [buildTLSConfig, hcs, hauth]

/-- Witness for C7: a concrete options value with `RequireAndVerifyClientCert`
and no CA sources is rejected. -/
theorem c7_client_auth_requires_ca_witness :
    buildTLSConfig c7Options =
      .error "invalid clientAuthType: RequireAndVerifyClientCert, CAFiles is required" := by
  have h := c7_client_auth_requires_ca c7Options (Or.inl rfl) rfl
  simpa using h

lemma defaultCertLoop_acc_isSome (p : CertificateType) (l : List Cert) (a : Cert) :
    (defaultCertLoop p l (some a)).isSome = true := by
  induction l generalizing a with
  | nil => rfl
  | cons c rest ih =>
    rcases hc : GetCertificateType c with _ | t
    · have he : defaultCertLoop p (c :: rest) (some a) = defaultCertLoop p rest (some a) := by
        simp [defaultCertLoop, hc]
      rw [he]
      exact ih a
    · cases t with
      | RSA =>
        cases p with
        | RSA => simp [defaultCertLoop, hc]
        | EC =>
          have he : defaultCertLoop CertificateType.EC (c :: rest) (some a) =
              defaultCertLoop CertificateType.EC rest (some c) := by
            simp [defaultCertLoop, hc]
          rw [he]
          exact ih c
      | EC =>
        cases p with
        | RSA =>
          have he : defaultCertLoop CertificateType.RSA (c :: rest) (some a) =
              defaultCertLoop CertificateType.RSA rest (some a) := by
            simp [defaultCertLoop, hc]
          rw [he]
          exact ih a
        | EC => simp [defaultCertLoop, hc]

lemma defaultCertLoop_isSome_of_rsa (p : CertificateType) (l : List Cert) (acc : Option Cert)
    (h : ∃ c ∈ l, GetCertificateType c = some CertificateType.RSA) :
    (defaultCertLoop p l acc).isSome = true := by
  induction l generalizing acc with
  | nil => simp at h
  | cons c rest ih =>
    have htail : (∃ d ∈ rest, GetCertificateType d = some CertificateType.RSA) ∨
        GetCertificateType c = some CertificateType.RSA := by
      rcases h with ⟨d, hd, hdt⟩
      rcases List.mem_cons.mp hd with rfl | hd2
      · exact Or.inr hdt
      · exact Or.inl ⟨d, hd2, hdt⟩
    rcases hc : GetCertificateType c with _ | t
    · have he : defaultCertLoop p (c :: rest) acc = defaultCertLoop p rest acc := by
        simp [defaultCertLoop, hc]
      rw [he]
      rcases htail with ht | ht
      · exact ih acc ht
      · rw [hc] at ht
        cases ht
    · cases t with
      | RSA =>
        cases p with
        | RSA => simp [defaultCertLoop, hc]
        | EC =>
          have he : defaultCertLoop CertificateType.EC (c :: rest) acc =
              defaultCertLoop CertificateType.EC rest (some c) := by
            simp [defaultCertLoop, hc]
          rw [he]
          exact defaultCertLoop_acc_isSome _ _ _
      | EC =>
        cases p with
        | RSA =>
          have he : defaultCertLoop CertificateType.RSA (c :: rest) acc =
              defaultCertLoop CertificateType.RSA rest acc := by
            simp [defaultCertLoop, hc]
          rw [he]
          rcases htail with ht | ht
          · exact ih acc ht
          · rw [hc] at ht
            exact absurd (Option.some.inj ht) (by simp)
        | EC => simp [defaultCertLoop, hc]

lemma defaultCertLoop_mem (p : CertificateType) (l : List Cert) (acc : Option Cert) :
    defaultCertLoop p l acc = acc ∨ ∃ c ∈ l, defaultCertLoop p l acc = some c := by
  induction l generalizing acc with
  | nil => exact Or.inl rfl
  | cons c rest ih =>
    rcases hc : GetCertificateType c with _ | t
    · have he : defaultCertLoop p (c :: rest) acc = defaultCertLoop p rest acc := by
        simp [defaultCertLoop, hc]
      rw [he]
      rcases ih acc with h | ⟨d, hd, hdd⟩
      · exact Or.inl h
      · exact Or.inr ⟨d, by simp [hd], hdd⟩
    · cases t with
      | RSA =>
        cases p with
        | RSA =>
          have he : defaultCertLoop CertificateType.RSA (c :: rest) acc = some c := by
            simp [defaultCertLoop, hc]
          exact Or.inr ⟨c, by simp, he⟩
        | EC =>
          have he : defaultCertLoop CertificateType.EC (c :: rest) acc =
              defaultCertLoop CertificateType.EC rest (some c) := by
            simp [defaultCertLoop, hc]
          rw [he]
          rcases ih (some c) with h | ⟨d, hd, hdd⟩
          · exact Or.inr ⟨c, by simp, h⟩
          · exact Or.inr ⟨d, by simp [hd], hdd⟩
      | EC =>
        cases p with
        | RSA =>
          have he : defaultCertLoop CertificateType.RSA (c :: rest) acc =
              defaultCertLoop CertificateType.RSA rest acc := by
            simp [defaultCertLoop, hc]
          rw [he]
          rcases ih acc with h | ⟨d, hd, hdd⟩
          · exact Or.inl h
          · exact Or.inr ⟨d, by simp [hd], hdd⟩
        | EC =>
          have he : defaultCertLoop CertificateType.EC (c :: rest) acc = some c := by
            simp [defaultCertLoop, hc]
          exact Or.inr ⟨c, by simp, he⟩

lemma defaultCertLoop_find_hint (p : CertificateType) (l : List Cert) (c : Cert)
    (acc : Option Cert)
    (h : l.find? (fun d => GetCertificateType d == some p) = some c) :
    defaultCertLoop p l acc = some c := by
  induction l generalizing acc with
  | nil => simp at h
  | cons d rest ih =>
    by_cases hd : (GetCertificateType d == some p) = true
    · simp only [List.find?_cons, hd, if_true] at h
      have hc : d = c := Option.some.inj h
      have hdp : GetCertificateType d = some p := by simpa using hd
      subst hc
      cases p with
      | RSA => simp [defaultCertLoop, hdp]
      | EC => simp [defaultCertLoop, hdp]
    · have h2 : rest.find? (fun d => GetCertificateType d == some p) = some c := by
        simpa only [List.find?_cons, hd, if_false] using h
      rcases hdt : GetCertificateType d with _ | t
      · have he : defaultCertLoop p (d :: rest) acc = defaultCertLoop p rest acc := by
          simp [defaultCertLoop, hdt]
        rw [he]
        exact ih acc h2
      · have htp : ¬ t = p := by
          intro hEq
          subst hEq
          rw [hdt] at hd
          simp at hd
        cases t with
        | RSA =>
          cases p with
          | RSA => exact absurd rfl htp
          | EC =>
            have he : defaultCertLoop CertificateType.EC (d :: rest) acc =
                defaultCertLoop CertificateType.EC rest (some d) := by
              simp [defaultCertLoop, hdt]
            rw [he]
            exact ih (some d) h2
        | EC =>
          cases p with
          | RSA =>
            have he : defaultCertLoop CertificateType.RSA (d :: rest) acc =
                defaultCertLoop CertificateType.RSA rest acc := by
              simp [defaultCertLoop, hdt]
            rw [he]
            exact ih acc h2
          | EC => exact absurd rfl htp

lemma defaultCertLoop_no_ec (l : List Cert) (acc : Option Cert)
    (h : ∀ c ∈ l, GetCertificateType c ≠ some CertificateType.EC) :
    defaultCertLoop CertificateType.EC l acc =
      l.foldl
        (fun a c => if GetCertificateType c == some CertificateType.RSA then some c else a)
        acc := by
  induction l generalizing acc with
  | nil => rfl
  | cons c rest ih =>
    have hc2 := h c (by simp)
    have htail : ∀ d ∈ rest, GetCertificateType d ≠ some CertificateType.EC :=
      fun d hd => h d (by simp [hd])
    rcases hc : GetCertificateType c with _ | t
    · have he : defaultCertLoop CertificateType.EC (c :: rest) acc =
          defaultCertLoop CertificateType.EC rest acc := by
        simp [defaultCertLoop, hc]
      rw [he, List.foldl_cons]
      have hstep : (if GetCertificateType c == some CertificateType.RSA then some c else acc) =
          acc := by
        simp [hc]
      rw [hstep]
      exact ih acc htail
    · cases t with
      | RSA =>
        have he : defaultCertLoop CertificateType.EC (c :: rest) acc =
            defaultCertLoop CertificateType.EC rest (some c) := by
          simp [defaultCertLoop, hc]
        rw [he, List.foldl_cons]
        have hstep : (if GetCertificateType c == some CertificateType.RSA then some c else acc) =
            some c := by
          simp [hc]
        rw [hstep]
        exact ih (some c) htail
      | EC => exact absurd hc hc2

lemma foldl_overwrite (p : Cert → Bool) (l : List Cert) (acc : Option Cert) :
    l.foldl (fun a c => if p c then some c else a) acc =
      match l.reverse.find? p with
      | some c => some c
      | none => acc := by
  induction l generalizing acc with
  | nil => rfl
  | cons c rest ih =>
    rw [List.foldl_cons, ih, List.reverse_cons, List.find?_append]
    by_cases hp : p c = true
    · cases hfr : rest.reverse.find? p <;> simp [hp]
    · cases hfr : rest.reverse.find? p <;> simp [hp]

/-- Claim C3, counterexample.  A fully built store whose explicit defaults are
two RSA-capable certificates (so no EC-capable default exists): with an EC
hint the fallback loop returns the second RSA default, not the first one as
the claim states. -/
theorem c3_counterexample :
    (buildCertificateStore c3Store).2 = none ∧
    (buildCertificateStore c3Store).1.defaultCertificates =
      [{ id := 1, certType := some .RSA }, { id := 2, certType := some .RSA }] ∧
    ((buildCertificateStore c3Store).1.defaultCertificates.find?
        (fun d => GetCertificateType d == some CertificateType.RSA)) =
      some { id := 1, certType := some .RSA } ∧
    defaultCertLoop CertificateType.EC (buildCertificateStore c3Store).1.defaultCertificates
        none =
      some { id := 2, certType := some .RSA } ∧
    ({ id := 2, certType := some .RSA } : Cert) ≠ { id := 1, certType := some .RSA } := by
  refine ⟨rfl, rfl, rfl, rfl, ?_⟩
  decide

/-- Claim C3, amended.  For every fully built store (`buildCertificateStore`
succeeded) and every client key-algorithm hint, the default-certificate
fallback loop always returns a record (never nil); it returns the first
default record whose detected key algorithm equals the hint whenever one
exists; and if the hint is EC and no EC-capable default exists it returns the
LAST RSA-capable default (not the first, as originally claimed). -/
theorem c3_amended (s : Store) (hint : CertificateType)
    (hok : (buildCertificateStore s).2 = none) :
    ((defaultCertLoop hint (buildCertificateStore s).1.defaultCertificates none).isSome =
      true) ∧
    (∀ c, ((buildCertificateStore s).1.defaultCertificates.find?
        (fun d => GetCertificateType d == some hint)) = some c →
      defaultCertLoop hint (buildCertificateStore s).1.defaultCertificates none = some c) ∧
    (hint = CertificateType.EC →
      ((buildCertificateStore s).1.defaultCertificates.find?
        (fun d => GetCertificateType d == some CertificateType.EC)) = none →
      defaultCertLoop CertificateType.EC (buildCertificateStore s).1.defaultCertificates
          none =
        (buildCertificateStore s).1.defaultCertificates.reverse.find?
          (fun d => GetCertificateType d == some CertificateType.RSA)) := by
  refine ⟨?_, ?_, ?_⟩
  · exact defaultCertLoop_isSome_of_rsa _ _ _ (build_has_rsa s hok)
  · intro c hc
    exact defaultCertLoop_find_hint _ _ _ _ hc
  · intro _ hnone
    have hno : ∀ c ∈ (buildCertificateStore s).1.defaultCertificates,
        GetCertificateType c ≠ some CertificateType.EC := by
      intro c hc
      have hmem := List.find?_eq_none.mp hnone c hc
      simpa using hmem
    rw [defaultCertLoop_no_ec _ _ hno, foldl_overwrite]
    cases hfr : (buildCertificateStore s).1.defaultCertificates.reverse.find?
        (fun d => GetCertificateType d == some CertificateType.RSA) <;> simp [hfr]

/-- Witness for C3: the generated-defaults store with an RSA hint yields a
record. -/
theorem c3_amended_witness :
    ((buildCertificateStore ({} : Store)).2 = none) ∧
    (defaultCertLoop CertificateType.RSA
      (buildCertificateStore ({} : Store)).1.defaultCertificates none).isSome = true := by
  exact ⟨rfl, (c3_amended {} CertificateType.RSA rfl).1⟩

/-- Claim C4.  For every client hello whose requested hostname matches no
dynamic certificate in the resolved store, when the ALPN provider yields
nothing and the store was fully built, the certificate hook fails with the
error naming the domain when the resolved options have `sniStrict = true`, and
returns a default certificate from the store when `sniStrict = false`. -/
theorem c4_strict_sni (cfgs : List (String × Options))
    (alpnGetter : Option (String → Except String (Option Cert)))
    (store : CertificateStore) (configName : String) (hello : ClientHello) (s : Store)
    (hbest : GetBestCertificate store hello = none)
    (halpn : alpnYieldsNone alpnGetter (canonicalDomain hello.serverName))
    (hok : (buildCertificateStore s).2 = none)
    (hdef : store.defaultCertificates = (buildCertificateStore s).1.defaultCertificates) :
    ((lookupOptionsD cfgs configName).sniStrict = true →
      getCertificateHook cfgs alpnGetter store configName hello =
        .error (strictSNIMessage (canonicalDomain hello.serverName))) ∧
    ((lookupOptionsD cfgs configName).sniStrict = false →
      ∃ c, getCertificateHook cfgs alpnGetter store configName hello = .ok (some c) ∧
        c ∈ store.defaultCertificates) := by
  have hcore : ∀ b, certHookCore b alpnGetter store hello =
      (if b then
        .error (strictSNIMessage (canonicalDomain hello.serverName))
      else
        .ok (defaultCertLoop (getCertTypeForClientHello hello)
          store.defaultCertificates none)) := by
    intro b
    rcases hg : alpnGetter with _ | f
    · simp [certHookCore, hbest]
    · have hf : f (canonicalDomain hello.serverName) = .ok none := halpn f hg
      simp [certHookCore, hbest, hf]
  constructor
  · intro hstrict
    simp [getCertificateHook, hcore, hstrict]
  · intro hlenient
    have hsome : (defaultCertLoop (getCertTypeForClientHello hello)
        store.defaultCertificates none).isSome = true := by
      rw [hdef]
      exact defaultCertLoop_isSome_of_rsa _ _ _ (build_has_rsa s hok)
    rcases ho : defaultCertLoop (getCertTypeForClientHello hello)
        store.defaultCertificates none with _ | c
    · rw [ho] at hsome
      cases hsome
    · refine ⟨c, ?_, ?_⟩
      · simp [getCertificateHook, hcore, hlenient, ho]
      · rcases defaultCertLoop_mem (getCertTypeForClientHello hello)
            store.defaultCertificates none with hm | ⟨d, hd, hdd⟩
        · rw [hm] at ho
          cases ho
        · rw [hdd] at ho
          rw [← Option.some.inj ho]
          exact hd

/-- Witness for C4: a fresh fully built store, no ALPN getter, an empty
registry (so `sniStrict` is false) and an empty client hello produce a default
certificate. -/
theorem c4_strict_sni_witness :
    ∃ c, getCertificateHook [] none (buildCertificateStore {}).1 "default" {} =
        .ok (some c) ∧
      c ∈ ((buildCertificateStore ({} : Store)).1).defaultCertificates := by
  exact (c4_strict_sni [] none (buildCertificateStore {}).1 "default" {} {} rfl
    (fun f hf => Option.noConfusion hf) rfl rfl).2 rfl

/-- Claim C10.  For every client hello, when the ALPN-challenge getter is configured
and returns an error for the (canonicalized) requested hostname, the
`GetCertificate` closure returns that error immediately — for every store and
every live options registry, in particular regardless of `sniStrict` — without
consulting the store's dynamic certificates or defaults. -/
theorem c10_alpn_error_precedence (cfgs : List (String × Options))
    (f : String → Except String (Option Cert)) (store : CertificateStore)
    (configName : String) (hello : ClientHello) (e : String)
    (h : f (canonicalDomain hello.serverName) = .error e) :
    getCertificateHook cfgs (some f) store configName hello = .error e := by
  simp only [getCertificateHook, certHookCore, h]

/-- Witness for C10: a failing getter propagates its error through the hook
for a concrete store with defaults and a lenient registry. -/
theorem c10_alpn_error_precedence_witness :
    getCertificateHook [("opt", { sniStrict := false })] (some c10getter)
        (buildCertificateStore {}).1 "opt" { serverName := "" } =
      .error "acme/tls-alpn-01 lookup failed" := by
  exact c10_alpn_error_precedence [("opt", { sniStrict := false })] c10getter
    (buildCertificateStore {}).1 "opt" { serverName := "" }
    "acme/tls-alpn-01 lookup failed" rfl

/-- Claim C6, counterexample.  The hooks returned by `Get` do NOT depend only
on Get-time state: with a registry mapping the options name to a lenient
policy at Get time, a later `UpdateConfigs` that flips `sniStrict` to true for
that name changes the certificate hook's output for the same client hello
from a default certificate to a handshake error, because the closure reads
`m.configs[configName].SniStrict` from the live manager at handshake time. -/
theorem c6_counterexample :
    certHookBehavior c6m1 (c6m0.Get "st" "opt").2.1 "opt" c6hello =
      .error (strictSNIMessage "") ∧
    certHookBehavior c6m0 (c6m0.Get "st" "opt").2.1 "opt" c6hello =
      .ok (some (generateDefaultCertificate .RSA)) ∧
    (Except.error (strictSNIMessage "") : Except String (Option Cert)) ≠
      .ok (some (generateDefaultCertificate .RSA)) := by
  refine ⟨rfl, rfl, ?_⟩
  simp

/-- Claim C6, amended.  The configuration-selection hook depends only on the
captured Get-time configuration; the certificate hook depends on the live
manager state only through `m.configs[configName].SniStrict` (the ALPN getter
is not touched by `UpdateConfigs`): whenever a later `UpdateConfigs` leaves
the strict-SNI bit of the captured options name unchanged, the already
returned certificate hook produces the same result for every client hello. -/
theorem c6_amended (m0 : Manager) (storesArg : List (String × Store))
    (configsArg : List (String × Options)) (certsArg : List CertAndStores)
    (storeName configName : String) (hello : ClientHello)
    (h : (lookupOptionsD (m0.UpdateConfigs storesArg configsArg certsArg).configs
        configName).sniStrict = (lookupOptionsD m0.configs configName).sniStrict) :
    certHookBehavior (m0.UpdateConfigs storesArg configsArg certsArg)
        (m0.Get storeName configName).2.1 configName hello =
      certHookBehavior m0 (m0.Get storeName configName).2.1 configName hello := by
  have halpn : (m0.UpdateConfigs storesArg configsArg certsArg).tlsAlpnGetter =
      m0.tlsAlpnGetter := rfl
  simp only [certHookBehavior, getCertificateHook, halpn, h]

/-- Witness for C6: a reload that keeps the default options entry unchanged
leaves the hook's behavior unchanged. -/
theorem c6_amended_witness :
    ((lookupOptionsD (NewManager.UpdateConfigs [] [("default", {})] []).configs
        "default").sniStrict = (lookupOptionsD NewManager.configs "default").sniStrict) ∧
    certHookBehavior (NewManager.UpdateConfigs [] [("default", {})] [])
        (NewManager.Get "st" "default").2.1 "default" c6hello =
      certHookBehavior NewManager (NewManager.Get "st" "default").2.1 "default" c6hello := by
  exact ⟨rfl, c6_amended NewManager [] [("default", {})] [] "st" "default" c6hello rfl⟩

lemma resolveIdentifiers_all_some (table : List (String × Nat)) (pre : String)
    (cs : List String) (h : ∀ c ∈ cs, (assocLookup c table).isSome = true) :
    resolveIdentifiers table pre cs =
      .ok (cs.filterMap (fun c => assocLookup c table)) := by
  induction cs with
  | nil => rfl
  | cons c rest ih =>
    rcases hc : assocLookup c table with _ | v
    · have hcontra := h c (by simp)
      rw [hc] at hcontra
      cases hcontra
    · have hrest := ih (fun d hd => h d (by simp [hd]))
      simp [resolveIdentifiers, hc, hrest, List.filterMap_cons]

/-- Claim C8, counterexample.  An `Options` value whose cipher-suite list
contains only identifiers present in the lookup table can still make
`buildTLSConfig` fail (here through an invalid curve preference), so the claim
that the build succeeds for every such `Options` value is false. -/
theorem c8_counterexample :
    (∀ c ∈ ["TLS_CHACHA20_POLY1305_SHA256"], (assocLookup c CipherSuites).isSome = true) ∧
    c8badOptions.cipherSuites = some ["TLS_CHACHA20_POLY1305_SHA256"] ∧
    buildTLSConfig c8badOptions = .error "invalid CurveID in curvePreferences: bogus" := by
  refine ⟨by decide, rfl, rfl⟩

/-- Claim C8, amended.  For every `Options` value whose cipher-suite list
contains only identifiers present in the fixed lookup table AND whose
remaining fields are themselves valid (the CA and client-auth stages succeed
and every configured curve preference resolves), `buildTLSConfig` succeeds and
the resulting configuration's cipher list is exactly the corresponding
resolved identifiers in the configured relative order. -/
theorem c8_amended (o : Options) (cs : List String) (c1 c2 : TLSConfig)
    (hca : caStage o = .ok c1) (hauth : authTypeStage o c1 = .ok c2)
    (hcs : o.cipherSuites = some cs)
    (hcsok : ∀ c ∈ cs, (assocLookup c CipherSuites).isSome = true)
    (hcurve : ∀ l, o.curvePreferences = some l →
      ∀ c ∈ l, (assocLookup c CurveIDs).isSome = true) :
    ∃ conf, buildTLSConfig o = .ok conf ∧
      conf.cipherSuites = some (cs.filterMap (fun c => assocLookup c CipherSuites)) := by
  have hcipher : cipherStage o (versionStage o c2) =
      .ok { versionStage o c2 with
        cipherSuites := some (cs.filterMap (fun c => assocLookup c CipherSuites)) } := by
    simp [cipherStage, hcs, resolveIdentifiers_all_some _ _ _ hcsok]
  rcases hcv : o.curvePreferences with _ | l
  · refine ⟨{ versionStage o c2 with
        cipherSuites := some (cs.filterMap (fun c => assocLookup c CipherSuites)) }, ?_, rfl⟩
    simp [buildTLSConfig, hca, hauth, hcipher, curveStage, hcv]
  · have hr := resolveIdentifiers_all_some CurveIDs
      "invalid CurveID in curvePreferences: " l (hcurve l hcv)
    refine ⟨{ { versionStage o c2 with
        cipherSuites := some (cs.filterMap (fun c => assocLookup c CipherSuites)) } with
          curvePreferences := some (l.filterMap (fun c => assocLookup c CurveIDs)) }, ?_, rfl⟩
    simp [buildTLSConfig, hca, hauth, hcipher, curveStage, hcv, hr]

/-- Witness for C8: a two-suite list resolves in order. -/
theorem c8_amended_witness :
    ∃ conf, buildTLSConfig c8goodOptions = .ok conf ∧
      conf.cipherSuites =
        some (["TLS_CHACHA20_POLY1305_SHA256",
          "TLS_ECDHE_RSA_WITH_CHACHA20_POLY1305"].filterMap
            (fun c => assocLookup c CipherSuites)) :=
  c8_amended c8goodOptions
    ["TLS_CHACHA20_POLY1305_SHA256", "TLS_ECDHE_RSA_WITH_CHACHA20_POLY1305"]
    baseTLSConfig baseTLSConfig rfl rfl rfl (by decide)
    (fun l hl => by simp [c8goodOptions] at hl)

/-- Claim C9, counterexample.  An `Options` value with two CA sources, the
first of which parses successfully, and an empty client-auth policy string —
so it has "at least one CA source whose PEM content parses successfully" —
makes `buildTLSConfig` return an error instead of a configuration, because
every configured CA source must parse. -/
theorem c9_counterexample :
    (∃ f ∈ c9badOptions.clientAuth.caFiles, f.parseOk = true) ∧
    c9badOptions.clientAuth.clientAuthType = "" ∧
    buildTLSConfig c9badOptions = .error "invalid certificate(s) content" := by
  refine ⟨by decide, rfl, rfl⟩

lemma versionStage_clientAuth (o : Options) (conf : TLSConfig) :
    (versionStage o conf).clientAuth = conf.clientAuth := by
  unfold versionStage
  cases assocLookup o.minVersion MinVersion <;>
    cases assocLookup o.maxVersion MaxVersion <;> rfl

lemma cipherStage_clientAuth (o : Options) (conf conf2 : TLSConfig)
    (h : cipherStage o conf = .ok conf2) : conf2.clientAuth = conf.clientAuth := by
  unfold cipherStage at h
  rcases hcs : o.cipherSuites with _ | cs
  · simp only [hcs, Except.ok.injEq] at h
    rw [← h]
  · simp only [hcs] at h
    rcases hr : resolveIdentifiers CipherSuites "invalid CipherSuite: " cs with e | l
    · simp only [hr] at h
      exact Except.noConfusion h
    · simp only [hr, Except.ok.injEq] at h
      rw [← h]

lemma curveStage_clientAuth (o : Options) (conf conf2 : TLSConfig)
    (h : curveStage o conf = .ok conf2) : conf2.clientAuth = conf.clientAuth := by
  unfold curveStage at h
  rcases hcs : o.curvePreferences with _ | cs
  · simp only [hcs, Except.ok.injEq] at h
    rw [← h]
  · simp only [hcs] at h
    rcases hr : resolveIdentifiers CurveIDs "invalid CurveID in curvePreferences: " cs
        with e | l
    · simp only [hr] at h
      exact Except.noConfusion h
    · simp only [hr, Except.ok.injEq] at h
      rw [← h]

/-- Claim C9, amended.  For every `Options` value whose client-auth CA sources
are non-empty and ALL read and parse successfully, and whose client-auth
policy string is empty, any configuration `buildTLSConfig` returns has
client-auth policy `RequireAndVerifyClientCert`: supplying CA files alone
implicitly enforces the strictest client-auth policy. -/
theorem c9_amended (o : Options) (conf : TLSConfig)
    (hne : o.clientAuth.caFiles ≠ [])
    (hall : ∀ f ∈ o.clientAuth.caFiles, f.readOk = true ∧ f.parseOk = true)
    (hty : o.clientAuth.clientAuthType = "")
    (hok : buildTLSConfig o = .ok conf) :
    conf.clientAuth = GoClientAuthType.RequireAndVerifyClientCert := by
  have hchk : checkCAFiles o.clientAuth.caFiles = none := checkCAFiles_all_ok _ hall
  have hca : caStage o = .ok caPoolConfig := by
    simp [caStage, hne, hchk]
  have hauth : authTypeStage o caPoolConfig = .ok caPoolConfig := by
    simp [authTypeStage, hty]
  simp only [buildTLSConfig, hca, hauth] at hok
  rcases hcip : cipherStage o (versionStage o caPoolConfig) with e | c4
  · simp only [hcip] at hok
    exact Except.noConfusion hok
  · simp only [hcip] at hok
    have h4 : c4.clientAuth = GoClientAuthType.RequireAndVerifyClientCert := by
      rw [cipherStage_clientAuth o _ _ hcip, versionStage_clientAuth]
      rfl
    rw [curveStage_clientAuth o c4 conf hok, h4]

/-- Witness for C9: one valid CA source and an empty policy string yield the
strictest client-auth policy. -/
theorem c9_amended_witness :
    buildTLSConfig c9goodOptions = .ok caPoolConfig ∧
    caPoolConfig.clientAuth = GoClientAuthType.RequireAndVerifyClientCert :=
  ⟨rfl, c9_amended c9goodOptions _ (by decide) (by decide) rfl rfl⟩

end TraefikTLS
